import Mathlib

/-!
Shallow embedding of the project-board layer of
`src/scripts/dev_ops_mcp_server.py`, together with proofs of the
specification claims about it.

Python `dict[str, str]` values are embedded as association lists
(`List (String × String)`) maintained with Python's insertion semantics:
inserting an existing key overwrites its value in place, a new key is
appended.  Python string truthiness (`if s:`) on an optional string is
embedded by `pyTruthy`.  Fallible code is embedded with `Except`.
-/

set_option autoImplicit false

namespace DevOpsMcp

/-- Embedding of a Python `dict[str, str]`, insertion-ordered. -/
abbrev Dict := List (String × String)

/-- Python `d[k] = v`: overwrite in place if the key exists, else append. -/
def dictInsert (d : Dict) (k v : String) : Dict :=
  match d with
  | [] => [(k, v)]
  | (k', v') :: rest => if k' = k then (k', v) :: rest else (k', v') :: dictInsert rest k v

/-- Python `d.get(k)`: the value stored at `k`, if any. -/
def dictGet (d : Dict) (k : String) : Option String :=
  match d with
  | [] => none
  | (k', v') :: rest => if k' = k then some v' else dictGet rest k

/-- Python `list(d.keys())` (insertion order; keys are unique). -/
def dictKeys (d : Dict) : List String :=
  d.map Prod.fst

/-- Python truthiness of an optional string: `None` and `""` are falsy. -/
def pyTruthy (s : Option String) : Bool :=
  match s with
  | none => false
  | some v => v ≠ ""

/-! ### Board URL parsing (`_get_project_id_from_url`, lines 466-478) -/

/-- How `_get_project_id_from_url` can fail.  Only `invalidFormat` is the
structured parse error raised by the function's own `else` branch; the other
three are unstructured exceptions escaping from `list.index`, subscripting
and `int()` respectively. -/
inductive UrlParseErr where
  | invalidFormat
  | valueErrorNotInList
  | indexError
  | valueErrorInt

deriving instance DecidableEq, Repr for UrlParseErr

/-- Python `str.strip(c)` for a single strip character. -/
def stripChar (s : String) (c : Char) : String :=
  String.mk (((s.toList.dropWhile (· = c)).reverse.dropWhile (· = c)).reverse)

/-- Splitting a character list at every occurrence of `c` (Python
`str.split(sep)` semantics for a one-character separator: empty pieces are
kept, the empty input yields one empty piece). -/
def splitCharAux (c : Char) : List Char → List (List Char)
  | [] => [[]]
  | a :: as =>
    let r := splitCharAux c as
    if a = c then [] :: r
    else
      match r with
      | [] => [[a]]
      | g :: gs => (a :: g) :: gs

/-- Python `s.split(c)` for a one-character separator. -/
def pySplit (s : String) (c : Char) : List String :=
  (splitCharAux c s.data).map String.mk

/-- Python `s.lower()` (character-wise lowering, as `str.lower` does on the
ASCII names involved here). -/
def pyLower (s : String) : String :=
  String.mk (s.data.map Char.toLower)

/-- `s.startswith(t)`. -/
def isPrefixChars : List Char → List Char → Bool
  | [], _ => true
  | _ :: _, [] => false
  | p :: ps, a :: as => decide (p = a) && isPrefixChars ps as

/-- Python `s.startswith(t)`. -/
def strStartsWith (s t : String) : Bool :=
  isPrefixChars t.data s.data

/-- The numeric value of a digit run. -/
def digitsToNat (l : List Char) : Nat :=
  l.foldl (fun n c => n * 10 + (c.toNat - 48)) 0

/-- Python `int(s)` on the strings reaching it here: an optional sign
followed by a non-empty digit run; anything else raises `ValueError`
(embedded as `none`). -/
def pyInt? (s : String) : Option Int :=
  match s.data with
  | [] => none
  | '-' :: rest =>
    if rest ≠ [] ∧ rest.all Char.isDigit then some (-(digitsToNat rest : Int)) else none
  | '+' :: rest =>
    if rest ≠ [] ∧ rest.all Char.isDigit then some (digitsToNat rest : Int) else none
  | l =>
    if l.all Char.isDigit then some (digitsToNat l : Int) else none

/-- Python `list.index`, returning `none` where Python raises `ValueError`. -/
def listIndex : List String → String → Option Nat
  | [], _ => none
  | a :: as, x => if a = x then some 0 else (listIndex as x).map (· + 1)

/-- `parts[parts.index(seg) + 1]`: `ValueError` if `seg` is absent,
`IndexError` if it is the last element. -/
def segAfter (parts : List String) (seg : String) : Except UrlParseErr String :=
  match listIndex parts seg with
  | none => .error .valueErrorNotInList
  | some i =>
    match parts.get? (i + 1) with
    | none => .error .indexError
    | some s => .ok s

/-- `int(parts[parts.index("projects") + 1])`. -/
def projectNumberOf (parts : List String) : Except UrlParseErr Int :=
  match segAfter parts "projects" with
  | .error e => .error e
  | .ok s =>
    match pyInt? s with
    | none => .error .valueErrorInt
    | some n => .ok n

/-- Embedding of `_get_project_id_from_url`: returns
`(owner kind, owner login, project number)`. -/
def get_project_id_from_url (url : String) : Except UrlParseErr (String × String × Int) :=
  let parts := pySplit (stripChar url '/') '/'
  if parts.contains "users" then
    match segAfter parts "users" with
    | .error e => .error e
    | .ok owner =>
      match projectNumberOf parts with
      | .error e => .error e
      | .ok n => .ok ("user", owner, n)
  else if parts.contains "orgs" then
    match segAfter parts "orgs" with
    | .error e => .error e
    | .ok owner =>
      match projectNumberOf parts with
      | .error e => .error e
      | .ok n => .ok ("organization", owner, n)
  else
    .error .invalidFormat

/-! ### Graph query executor (claim C7) -/

/-- A decoded HTTP response from the graph endpoint: status code, the
`data` payload (kept opaque as a string) and the `errors` array's
message strings. -/
structure GraphQLResponse where
  status : Nat
  data : String
  errors : List String

/-- Typed failure of the executor. -/
inductive ApiErr where
  | transport (status : Nat)
  | api (messages : List String)

deriving instance DecidableEq, Repr for ApiErr

/-- Modelled from the spec: the graph query executor (§4.1).  The transport
call `github_client.post_graphql` used by `_graphql_query` is library code
not under `src/`; per §4.1 a non-2xx response is a `TRANSPORT` failure and a
2xx response carrying a non-empty `errors` array is an `API` failure whose
messages are the array's messages (this is also what the `except` clause of
`_graphql_query`, lines 485-488, extracts and reports). -/
def graphql_execute (r : GraphQLResponse) : Except ApiErr String :=
  if r.status < 200 ∨ 300 ≤ r.status then .error (.transport r.status)
  else if r.errors ≠ [] then .error (.api r.errors)
  else .ok r.data

/-! ### Field schema resolution (`_get_project_field_id_and_options`,
lines 512-554) -/

/-- One option of a single-select field, as returned by the fields query. -/
structure SelectOption where
  name : String
  id : String

deriving instance DecidableEq, Repr for SelectOption

/-- One field node of the fields query.  A `ProjectV2Field` node carries no
`options` key (`options = none`); a `ProjectV2SingleSelectField` node
carries one (`options = some ...`). -/
structure ProjField where
  id : String
  name : String
  options : Option (List SelectOption)

deriving instance DecidableEq, Repr for ProjField

/-- Unified error type of the field-mutation path. -/
inductive UpdateErr where
  | fieldNotFound
  | optionNotFound (available : List String)
  | valueRequired

deriving instance DecidableEq, Repr for UpdateErr

/-- Line 552: `{option['name'].lower(): option['id'] for option in ...}`. -/
def buildOptions (opts : List SelectOption) : Dict :=
  opts.foldl (fun d o => dictInsert d (pyLower o.name) o.id) []

/-- Lines 543-546: first field whose name matches case-insensitively. -/
def findField (fields : List ProjField) (fieldName : String) : Option ProjField :=
  fields.find? (fun f => pyLower f.name = pyLower fieldName)

/-- Embedding of `_get_project_field_id_and_options`: the matched field's id
together with its lowercased-name → id option mapping (empty when the field
carries no `options` list, via `target_field.get('options', [])`). -/
def get_project_field_id_and_options (fields : List ProjField) (fieldName : String) :
    Except UpdateErr (String × Dict) :=
  match findField fields fieldName with
  | none => .error .fieldNotFound
  | some f => .ok (f.id, buildOptions (f.options.getD []))

/-! ### Field update (`_github_update_project_item_field`, lines 686-726) -/

/-- The `value` object sent in the update mutation's variables. -/
inductive FieldPayload where
  | singleSelectOptionId (id : String)
  | text (s : String)

deriving instance DecidableEq, Repr for FieldPayload

/-- Lines 693-702: payload from a supplied value name (`new_value`), taken
when `new_value_id` is falsy.  `options.get(new_value.lower())` followed by
`if not option_id:` treats both a missing key and an empty-string id as
"option not found", raising the error that carries `list(options.keys())`. -/
def fieldUpdateFromValue (options : Dict) (new_value : Option String) :
    Except UpdateErr FieldPayload :=
  match new_value with
  | some v =>
    if options ≠ [] then
      match dictGet options (pyLower v) with
      | none => .error (.optionNotFound (dictKeys options))
      | some oid => if oid = "" then .error (.optionNotFound (dictKeys options))
                    else .ok (.singleSelectOptionId oid)
    else
      .ok (.text v)
  | none => .error .valueRequired

/-- Lines 690-702: the whole `input_value` computation.  `if new_value_id:`
is Python truthiness, so `None` and `""` both fall through to the
`new_value is not None` branch. -/
def fieldUpdatePayload (options : Dict) (new_value new_value_id : Option String) :
    Except UpdateErr FieldPayload :=
  match new_value_id with
  | some vid => if vid = "" then fieldUpdateFromValue options new_value
                else .ok (.singleSelectOptionId vid)
  | none => fieldUpdateFromValue options new_value

/-- Embedding of `_github_update_project_item_field` after the board id is
resolved: resolve the field, compute the payload, and (on success) return
the `(fieldId, value)` pair that the mutation's variables carry.  An
`.error` result means the update mutation is never sent (the `raise`
happens before `_graphql_query(mutation, variables)`). -/
def github_update_project_item_field (fields : List ProjField) (field_name : String)
    (new_value new_value_id : Option String) : Except UpdateErr (String × FieldPayload) :=
  match get_project_field_id_and_options fields field_name with
  | .error e => .error e
  | .ok (field_id, options) =>
    match fieldUpdatePayload options new_value new_value_id with
    | .error e => .error e
    | .ok p => .ok (field_id, p)

/-! ### Item listing and pagination (`_github_get_project_items`,
lines 597-684) -/

/-- One `fieldValues` node: exactly one scalar variant is populated per
recognized field-value entry (the query's three inline fragments).  The
`text` / `date` / `name` key check order of lines 649-651 is modelled by
this tagged union. -/
inductive FieldVariant where
  | text (v : String)
  | date (v : String)
  | name (v : String)

deriving instance DecidableEq, Repr for FieldVariant

/-- A `fieldValues` node together with its `field { name }`. -/
structure RawFieldValue where
  fieldName : String
  variant : FieldVariant

deriving instance DecidableEq, Repr for RawFieldValue

/-- The `content` object of an item node, with the scalar fields the two
inline fragments (`Issue`, `PullRequest`) select; nested `labels` /
`assignees` / `milestone` objects are flattened to the extracted name
lists / title.  Fields absent from a fragment are `none`. -/
structure RawContent where
  number : Option Int
  title : Option String
  state : Option String
  url : Option String
  body : Option String
  labels : List String
  assignees : List String
  milestone : Option String
  createdAt : Option String
  updatedAt : Option String
  closedAt : Option String
  mergedAt : Option String

deriving instance DecidableEq, Repr for RawContent

/-- One item node of the items query.  `content = none` embeds both a null
content and the empty object `{}` that a draft's `DraftIssue` content decodes
to (both are falsy in the Python checks `if item_node['content']:`). -/
structure RawItem where
  id : String
  type : String
  fieldValues : List RawFieldValue
  content : Option RawContent

deriving instance DecidableEq, Repr for RawItem

/-- Page info of one items page. -/
structure PageInfo where
  hasNextPage : Bool
  endCursor : Option String

deriving instance DecidableEq, Repr for PageInfo

/-- One API page of item nodes. -/
structure Page where
  nodes : List RawItem
  pageInfo : PageInfo

deriving instance DecidableEq, Repr for Page

/-- The normalized `content_*` entries of an `item_info` dict
(lines 653-668). -/
structure ContentOut where
  number : Option Int
  title : Option String
  state : Option String
  url : Option String
  body : Option String
  labels : List String
  assignees : List String
  milestone : Option String
  createdAt : Option String
  updatedAt : Option String
  closedAt : Option String
  mergedAt : Option String

deriving instance DecidableEq, Repr for ContentOut

/-- A normalized item (`item_info`), the record shape returned to the
caller: id, type, folded dynamic fields, optional content.  It carries no
pagination cursor. -/
structure ItemInfo where
  id : String
  type : String
  fields : Dict
  content : Option ContentOut

deriving instance DecidableEq, Repr for ItemInfo

/-- Lines 646-651: fold the populated scalar variant of each field value
into the `fields` dict under its field name. -/
def buildFields (fvs : List RawFieldValue) : Dict :=
  fvs.foldl
    (fun d fv =>
      match fv.variant with
      | .text v => dictInsert d fv.fieldName v
      | .date v => dictInsert d fv.fieldName v
      | .name v => dictInsert d fv.fieldName v)
    []

/-- Lines 653-668: copy the content scalars into `content_*` entries. -/
def normalizeContent (c : RawContent) : ContentOut :=
  { number := c.number, title := c.title, state := c.state, url := c.url,
    body := c.body, labels := c.labels, assignees := c.assignees,
    milestone := c.milestone, createdAt := c.createdAt, updatedAt := c.updatedAt,
    closedAt := c.closedAt, mergedAt := c.mergedAt }

/-- Lines 640-668: build `item_info` from an item node. -/
def normalizeItem (item : RawItem) : ItemInfo :=
  { id := item.id, type := item.type, fields := buildFields item.fieldValues,
    content := item.content.map normalizeContent }

/-- Lines 670-676: the state-filter decision (`should_add`).  Branch order
as in the code: `ALL` admits everything; a `DRAFT_ISSUE` item is admitted
when the filter is `OPEN`; otherwise the item is admitted when its content
is present (truthy) and the content's `state` equals the filter. -/
def should_add (state : String) (item : RawItem) : Bool :=
  if state = "ALL" then true
  else if item.type = "DRAFT_ISSUE" ∧ state = "OPEN" then true
  else
    match item.content with
    | some c => c.state = some state
    | none => false

/-- The per-page body of the listing loop (lines 639-679): normalize each
node and append it when `should_add` holds. -/
def processNodes (state : String) : List RawItem → List ItemInfo
  | [] => []
  | n :: ns =>
    if should_add state n then normalizeItem n :: processNodes state ns
    else processNodes state ns

/-- The pagination loop of lines 630-682, over the sequence of pages the
API hands back for successive requests.  Returns the accumulated items and
the trace of `(first, after)` request arguments actually issued.  Each
request uses page size 50; the first uses `after = none` (`end_cursor`
starts as `None`) and each following request passes the previous page's
`endCursor`.  The loop continues exactly while `hasNextPage` is true; an
exhausted page list with the loop still running yields nothing further. -/
def listItemsGo (state : String) : List Page → Option String → List ItemInfo × List (Nat × Option String)
  | [], _ => ([], [])
  | p :: ps, after =>
    let items := processNodes state p.nodes
    if p.pageInfo.hasNextPage then
      let rest := listItemsGo state ps p.pageInfo.endCursor
      (items ++ rest.1, (50, after) :: rest.2)
    else
      (items, [(50, after)])

/-- Embedding of `_github_get_project_items` after the board id is
resolved: drain the board, starting with a `None` cursor. -/
def github_get_project_items (state : String) (pages : List Page) :
    List ItemInfo × List (Nat × Option String) :=
  listItemsGo state pages none

/-! ### Item creation (`_github_create_project_item`, lines 556-595, and
the dispatch guard of `handle_request`, lines 832-835) -/

/-- How item creation can fail before any mutation is sent. -/
inductive CreateErr where
  /-- The dispatch guard: neither `title` nor `issue_id` supplied. -/
  | missingTitleOrIssueId
  /-- Line 570: `issue_id` lacks the `I_` / `PR_` structural tag. -/
  | invalidIssueId
  /-- Line 575: draft path with a falsy title. -/
  | titleRequired

deriving instance DecidableEq, Repr for CreateErr

/-- The mutation the create call sends: link existing content, or create a
draft. -/
inductive CreateMutation where
  | link (contentId : String)
  | draft (title body : String)

deriving instance DecidableEq, Repr for CreateMutation

/-- Lines 559-586 of `_github_create_project_item`: `if issue_id:` is
truthiness, so a `None` or empty id takes the draft path; on the link path
the id must start with `I_` or `PR_`; on the draft path a truthy title is
required and `title`/`body` form the draft. -/
def create_project_item_core (title : Option String) (body : String)
    (issue_id : Option String) : Except CreateErr CreateMutation :=
  let draftPath : Except CreateErr CreateMutation :=
    match title with
    | some t => if t = "" then .error .titleRequired else .ok (.draft t body)
    | none => .error .titleRequired
  match issue_id with
  | some iid =>
    if iid = "" then draftPath
    else if strStartsWith iid "I_" ∨ strStartsWith iid "PR_" then .ok (.link iid)
    else .error .invalidIssueId
  | none => draftPath

/-- The full caller-facing create operation: the `handle_request` guard
(lines 833-834) rejects a call where both `issue_id` and `title` are falsy,
then `_github_create_project_item` runs. -/
def mcp_create_project_item (title : Option String) (body : String)
    (issue_id : Option String) : Except CreateErr CreateMutation :=
  if pyTruthy issue_id = false ∧ pyTruthy title = false then
    .error .missingTitleOrIssueId
  else
    create_project_item_core title body issue_id

/-! ### Issue update (`_github_update_issue`, lines 379-423) -/

/-- The mutable state of an issue that the update call touches. -/
structure Issue where
  title : String
  body : String
  state : String
  labels : List String
  assignees : List String
  milestone : Option Int

deriving instance DecidableEq, Repr for Issue

/-- The optional arguments of `_github_update_issue`; `none` means the
argument was not supplied (`None` default). -/
structure IssueUpdate where
  title : Option String
  body : Option String
  state : Option String
  labels : Option (List String)
  assignees : Option (List String)
  milestone_number : Option Int

deriving instance DecidableEq, Repr for IssueUpdate

/-- How the update call can fail. -/
inductive IssueUpdateErr where
  | milestoneNotFound

deriving instance DecidableEq, Repr for IssueUpdateErr

/-- Lines 392-401: the assignee reconciliation.  `to_add` / `to_remove` are
computed against the current assignees; additions are applied, then
removals, then (redundantly) a full clear when the new list is empty and
there were assignees. -/
def applyAssignees (cur new : List String) : List String :=
  let to_add := new.filter (fun a => decide (a ∉ cur))
  let to_remove := cur.filter (fun a => decide (a ∉ new))
  let afterAdd := if to_add ≠ [] then cur ++ to_add else cur
  let afterRemove :=
    if to_remove ≠ [] then afterAdd.filter (fun a => decide (a ∉ to_remove)) else afterAdd
  if new = [] ∧ cur ≠ [] then afterRemove.filter (fun a => decide (a ∉ cur))
  else afterRemove

/-- Embedding of `_github_update_issue` on a resolved issue.
`validMilestones` is the set of milestone numbers the repository resolves
(`repo.get_milestone` succeeds exactly on them).  Labels are replaced
wholesale by `issue.set_labels(*labels)`; assignees are reconciled by
`applyAssignees`; `title` / `body` / `state` go through `update_params`
only when supplied; `milestone_number = -1` clears the milestone, any other
supplied number must resolve. -/
def github_update_issue (validMilestones : List Int) (issue : Issue)
    (u : IssueUpdate) : Except IssueUpdateErr Issue :=
  let issue1 :=
    match u.labels with
    | some ls => { issue with labels := ls }
    | none => issue
  let issue2 :=
    match u.assignees with
    | some as => { issue1 with assignees := applyAssignees issue1.assignees as }
    | none => issue1
  let withEdit : Option Int → Issue := fun ms =>
    { issue2 with
      title := u.title.getD issue2.title,
      body := u.body.getD issue2.body,
      state := u.state.getD issue2.state,
      milestone := ms }
  match u.milestone_number with
  | some m =>
    if m = -1 then .ok (withEdit none)
    else if validMilestones.contains m then .ok (withEdit (some m))
    else .error .milestoneNotFound
  | none => .ok (withEdit issue2.milestone)

/-! ## Helper lemmas about the dict embedding -/

theorem mem_dictKeys_dictInsert (d : Dict) (k v k' : String) :
    k' ∈ dictKeys (dictInsert d k v) ↔ k' ∈ dictKeys d ∨ k' = k := by
  induction d with
  | nil => simp [dictInsert, dictKeys]
  | cons kv rest ih =>
    obtain ⟨k0, v0⟩ := kv
    by_cases h : k0 = k
    · subst h
      simp [dictInsert, dictKeys]
      tauto
    · simp only [dictInsert, if_neg h, dictKeys, List.map_cons, List.mem_cons]
      rw [show (dictKeys (dictInsert rest k v) = (dictInsert rest k v).map Prod.fst) from rfl] at ih
      rw [show (dictKeys rest = rest.map Prod.fst) from rfl] at ih
      tauto

theorem dictGet_eq_some_mem {d : Dict} {k v : String} (h : dictGet d k = some v) :
    (k, v) ∈ d := by
  induction d with
  | nil => simp [dictGet] at h
  | cons kv rest ih =>
    obtain ⟨k0, v0⟩ := kv
    by_cases hk : k0 = k
    · subst hk
      simp [dictGet] at h
      subst h
      exact List.mem_cons_self _ _
    · simp only [dictGet, if_neg hk] at h
      exact List.mem_cons_of_mem _ (ih h)

theorem dictGet_isSome_iff {d : Dict} {k : String} :
    (dictGet d k).isSome = true ↔ k ∈ dictKeys d := by
  induction d with
  | nil => simp [dictGet, dictKeys]
  | cons kv rest ih =>
    obtain ⟨k0, v0⟩ := kv
    by_cases hk : k0 = k
    · subst hk
      simp [dictGet, dictKeys]
    · simp [dictGet, hk, dictKeys, ih, Ne.symm hk]

theorem mem_dictKeys_foldlOptions (opts : List SelectOption) :
    ∀ (d : Dict) (k : String),
      k ∈ dictKeys (opts.foldl (fun d o => dictInsert d (pyLower o.name) o.id) d) ↔
        k ∈ dictKeys d ∨ ∃ o ∈ opts, pyLower o.name = k := by
  induction opts with
  | nil => simp
  | cons o rest ih =>
    intro d k
    rw [List.foldl_cons, ih, mem_dictKeys_dictInsert]
    simp
    tauto

theorem mem_dictKeys_buildOptions (opts : List SelectOption) (k : String) :
    k ∈ dictKeys (buildOptions opts) ↔ ∃ o ∈ opts, pyLower o.name = k := by
  have := mem_dictKeys_foldlOptions opts [] k
  simpa [buildOptions, dictKeys] using this

/-! ## Claim theorems -/

/-- C7: on an HTTP 2xx response whose body carries a non-empty `errors`
array, the graph query executor returns the typed `API` failure carrying
the error messages, never a success result. -/
theorem claim7_graphql_2xx_errors (r : GraphQLResponse)
    (h2 : 200 ≤ r.status ∧ r.status < 300) (he : r.errors ≠ []) :
    graphql_execute r = .error (.api r.errors) := by
  have h1 : ¬(r.status < 200 ∨ 300 ≤ r.status) := by omega
  simp [graphql_execute, h1, he]

/-- Witness for C7 at a concrete 200 response with one error message. -/
theorem claim7_graphql_2xx_errors_witness :
    graphql_execute ⟨200, "d", ["boom"]⟩ = .error (.api ["boom"]) :=
  claim7_graphql_2xx_errors ⟨200, "d", ["boom"]⟩ (by decide) (by simp)

/-- C5 counterexample: the URL `https://github.com/users/bob` contains a
`users/<name>` segment but no `projects/<number>` segment, yet
`_get_project_id_from_url` fails with the unstructured `ValueError` that
`parts.index("projects")` raises, not with the structured parse error of
its `else` branch — contradicting the claim that such a URL "still yields
the structured PARSE_ERROR". -/
theorem claim5_counterexample :
    get_project_id_from_url "https://github.com/users/bob"
        = .error .valueErrorNotInList
      ∧ UrlParseErr.valueErrorNotInList ≠ UrlParseErr.invalidFormat := by
  constructor
  · rfl
  · intro h
    cases h

/-- C5 amended: only when the slash-split path contains neither a `users`
nor an `orgs` segment does `locate` fail with the structured parse error;
a URL containing `users/` or `orgs/` but no `projects/<number>` segment,
or a non-numeric project number, escapes with an unstructured
`ValueError` / `IndexError` instead. -/
theorem claim5_amended_invalid_format (url : String)
    (hu : (pySplit (stripChar url '/') '/').contains "users" = false)
    (ho : (pySplit (stripChar url '/') '/').contains "orgs" = false) :
    get_project_id_from_url url = .error .invalidFormat := by
  have hu' : "users" ∉ pySplit (stripChar url '/') '/' := by simpa using hu
  have ho' : "orgs" ∉ pySplit (stripChar url '/') '/' := by simpa using ho
  unfold get_project_id_from_url
  simp [hu', ho']

/-- Witness for the amended C5 at a concrete URL with neither segment. -/
theorem claim5_amended_invalid_format_witness :
    get_project_id_from_url "https://example.com/foo" = .error .invalidFormat :=
  claim5_amended_invalid_format "https://example.com/foo" (by rfl) (by rfl)

/-- C6 counterexample: supplying both a content id and a title does not
fail with `INVALID_ARGUMENT`; the content-linking path is taken and the
title/body are ignored (as the tool's own description states). -/
theorem claim6_counterexample :
    mcp_create_project_item (some "T") "B" (some "I_abc")
      = .ok (.link "I_abc") := by
  rfl

/-- C6 amended: exactly one path is taken, chosen by the truthiness of the
content id: a truthy `issue_id` takes the content-linking path (subject to
the `I_`/`PR_` structural tag check) with any supplied title/body ignored;
otherwise the draft path requires a truthy title; supplying neither a
truthy `issue_id` nor a truthy title fails with `INVALID_ARGUMENT` in the
dispatch guard, before any mutation is attempted. -/
theorem claim6_amended_create_paths (title : Option String) (body : String)
    (issue_id : Option String) :
    (pyTruthy issue_id = false → pyTruthy title = false →
       mcp_create_project_item title body issue_id = .error .missingTitleOrIssueId)
    ∧ (∀ iid, issue_id = some iid → iid ≠ "" →
        mcp_create_project_item title body issue_id =
          (if strStartsWith iid "I_" ∨ strStartsWith iid "PR_" then .ok (.link iid)
           else .error .invalidIssueId))
    ∧ (∀ t, title = some t → t ≠ "" → pyTruthy issue_id = false →
        mcp_create_project_item title body issue_id = .ok (.draft t body)) := by
  refine ⟨?_, ?_, ?_⟩
  · intro hi ht
    simp [mcp_create_project_item, hi, ht]
  · intro iid hiid hne
    subst hiid
    have ht : pyTruthy (some iid) = true := by simp [pyTruthy, hne]
    simp [mcp_create_project_item, ht, create_project_item_core, hne]
  · intro t ht hne hi
    subst ht
    cases hii : issue_id with
    | none =>
      simp [mcp_create_project_item, create_project_item_core, pyTruthy, hne]
    | some s =>
      rw [hii] at hi
      have hs : s = "" := by
        by_contra hs
        simp [pyTruthy, hs] at hi
      subst hs
      simp [mcp_create_project_item, create_project_item_core, pyTruthy, hne]

/-- Witness for the amended C6 at concrete inputs: neither argument
supplied yields the dispatch-guard error. -/
theorem claim6_amended_create_paths_witness :
    mcp_create_project_item none "" none = .error .missingTitleOrIssueId :=
  (claim6_amended_create_paths none "" none).1 rfl rfl

theorem findField_eq_none_iff (fields : List ProjField) (fname : String) :
    findField fields fname = none ↔ ∀ f ∈ fields, pyLower f.name ≠ pyLower fname := by
  simp [findField, List.find?_eq_none]

theorem findField_eq_some (fields : List ProjField) (fname : String) (f : ProjField)
    (h : findField fields fname = some f) :
    pyLower f.name = pyLower fname
      ∧ ∃ pre post, fields = pre ++ f :: post
          ∧ ∀ g ∈ pre, pyLower g.name ≠ pyLower fname := by
  induction fields with
  | nil => simp [findField] at h
  | cons a rest ih =>
    by_cases hpa : pyLower a.name = pyLower fname
    · have ha : findField (a :: rest) fname = some a := by
        simp [findField, List.find?_cons_of_pos, hpa]
      rw [ha] at h
      injection h with h
      subst h
      exact ⟨hpa, [], rest, rfl, by simp⟩
    · have hstep : findField (a :: rest) fname = findField rest fname := by
        simp [findField, List.find?_cons_of_neg, hpa]
      rw [hstep] at h
      obtain ⟨h1, pre, post, hsplit, hpre⟩ := ih h
      refine ⟨h1, a :: pre, post, by rw [hsplit]; rfl, ?_⟩
      intro g hg
      rcases List.mem_cons.mp hg with hg | hg
      · subst hg; exact hpa
      · exact hpre g hg

/-- C3: field resolution matches the requested name case-insensitively with
first-match-wins semantics; no match fails with `FIELD_NOT_FOUND`; the
returned option mapping's keys are exactly the lowercased option names of
the matched field (empty when the field carries no options list); and two
requests whose field names agree up to case yield identical results. -/
theorem claim3_resolveField (fields : List ProjField) (n1 n2 : String)
    (hcase : pyLower n1 = pyLower n2) :
    get_project_field_id_and_options fields n1 = get_project_field_id_and_options fields n2
    ∧ (get_project_field_id_and_options fields n1 = .error .fieldNotFound ↔
        ∀ f ∈ fields, pyLower f.name ≠ pyLower n1)
    ∧ (∀ fid opts, get_project_field_id_and_options fields n1 = .ok (fid, opts) →
        ∃ pre f post, fields = pre ++ f :: post
          ∧ pyLower f.name = pyLower n1
          ∧ (∀ g ∈ pre, pyLower g.name ≠ pyLower n1)
          ∧ fid = f.id
          ∧ opts = buildOptions (f.options.getD [])
          ∧ (∀ k, k ∈ dictKeys opts ↔ ∃ o ∈ f.options.getD [], pyLower o.name = k)
          ∧ (f.options = none → opts = [])) := by
  refine ⟨?_, ?_, ?_⟩
  · unfold get_project_field_id_and_options findField
    simp only [hcase]
  · cases hf : findField fields n1 with
    | none =>
      have hall := (findField_eq_none_iff fields n1).mp hf
      simp only [get_project_field_id_and_options, hf]
      exact ⟨fun _ => hall, fun _ => trivial⟩
    | some f =>
      obtain ⟨h1, pre, post, hsplit, hpre⟩ := findField_eq_some fields n1 f hf
      have hmem : f ∈ fields := by rw [hsplit]; simp
      constructor
      · intro hcontra
        simp [get_project_field_id_and_options, hf] at hcontra
      · intro hall
        exact absurd h1 (hall f hmem)
  · intro fid opts hok
    cases hf : findField fields n1 with
    | none => simp [get_project_field_id_and_options, hf] at hok
    | some f =>
      simp only [get_project_field_id_and_options, hf, Except.ok.injEq, Prod.mk.injEq] at hok
      obtain ⟨hfid, hopts⟩ := hok
      obtain ⟨h1, pre, post, hsplit, hpre⟩ := findField_eq_some fields n1 f hf
      refine ⟨pre, f, post, hsplit, h1, hpre, hfid.symm, hopts.symm, ?_, ?_⟩
      · intro k
        rw [← hopts]
        exact mem_dictKeys_buildOptions (f.options.getD []) k
      · intro hnone
        rw [← hopts, hnone]
        rfl

/-- Witness for C3 at a concrete single-select field, instantiated at the
two casings `"STATUS"` / `"status"`. -/
theorem claim3_resolveField_witness :
    get_project_field_id_and_options [⟨"F1", "Status", some [⟨"Todo", "o1"⟩]⟩] "STATUS"
      = get_project_field_id_and_options [⟨"F1", "Status", some [⟨"Todo", "o1"⟩]⟩] "status" :=
  (claim3_resolveField [⟨"F1", "Status", some [⟨"Todo", "o1"⟩]⟩] "STATUS" "status"
    (by decide)).1

/-- C1: for an update supplying a value name and no truthy option id, once
the field is resolved the outcome is fixed by the discovered option
mapping: a non-empty mapping with no (lowercased) match fails with
`OPTION_NOT_FOUND` carrying the available option names and no mutation is
produced; a match yields the matched option's id as the payload; an empty
mapping (text field) sends the value verbatim as a free-text payload and
never takes the `OPTION_NOT_FOUND` path.  Option ids, being opaque
identifiers obtained from the API, are assumed non-empty (`hids`): the
code's `if not option_id:` truthiness check would misread an empty-string
id as a missing option. -/
theorem claim1_updateField_byName (fields : List ProjField) (fname v : String)
    (nvid : Option String) (hnvid : pyTruthy nvid = false)
    (fid : String) (opts : Dict)
    (hres : get_project_field_id_and_options fields fname = .ok (fid, opts))
    (hids : ∀ kv ∈ opts, kv.2 ≠ "") :
    (opts ≠ [] →
       (dictGet opts (pyLower v) = none →
          github_update_project_item_field fields fname (some v) nvid
            = .error (.optionNotFound (dictKeys opts)))
       ∧ (∀ oid, dictGet opts (pyLower v) = some oid →
          github_update_project_item_field fields fname (some v) nvid
            = .ok (fid, .singleSelectOptionId oid)))
    ∧ (opts = [] →
        github_update_project_item_field fields fname (some v) nvid
          = .ok (fid, .text v)) := by
  have hpay : fieldUpdatePayload opts (some v) nvid = fieldUpdateFromValue opts (some v) := by
    cases nvid with
    | none => rfl
    | some s =>
      have hs : s = "" := by
        by_contra hs
        simp [pyTruthy, hs] at hnvid
      subst hs
      simp [fieldUpdatePayload]
  constructor
  · intro hne
    constructor
    · intro hget
      simp [github_update_project_item_field, hres, hpay, fieldUpdateFromValue, hne, hget]
    · intro oid hget
      have hmem := dictGet_eq_some_mem hget
      have hoid : oid ≠ "" := hids (pyLower v, oid) hmem
      simp [github_update_project_item_field, hres, hpay, fieldUpdateFromValue, hne, hget, hoid]
  · intro hempty
    subst hempty
    simp [github_update_project_item_field, hres, hpay, fieldUpdateFromValue]

/-- Witness for C1: a resolved single-select field with one option, matched
case-insensitively; and the matched option id is produced. -/
theorem claim1_updateField_byName_witness :
    github_update_project_item_field [⟨"F1", "Status", some [⟨"Todo", "o1"⟩]⟩]
        "Status" (some "TODO") none
      = .ok ("F1", .singleSelectOptionId "o1") :=
  ((claim1_updateField_byName [⟨"F1", "Status", some [⟨"Todo", "o1"⟩]⟩] "Status" "TODO"
      none rfl "F1" [("todo", "o1")] rfl (by decide)).1
    (by decide)).2 "o1" (by decide)

/-- C8: an update supplying a truthy explicit option id passes it through
verbatim as the mutation payload with no option-name lookup: the
conclusion holds for every `nv`, in particular for a value name matching
no option of the resolved field, and the result is never
`OPTION_NOT_FOUND`. -/
theorem claim8_updateField_byId (fields : List ProjField) (fname : String)
    (nv : Option String) (vid : String) (hvid : vid ≠ "")
    (fid : String) (opts : Dict)
    (hres : get_project_field_id_and_options fields fname = .ok (fid, opts)) :
    github_update_project_item_field fields fname nv (some vid)
      = .ok (fid, .singleSelectOptionId vid) := by
  simp [github_update_project_item_field, hres, fieldUpdatePayload, hvid]

/-- Witness for C8: the supplied value name `"nonexistent"` matches no
option of the resolved field, yet the by-id call still succeeds with the
id passed through verbatim. -/
theorem claim8_updateField_byId_witness :
    github_update_project_item_field [⟨"F1", "Status", some [⟨"Todo", "o1"⟩]⟩]
        "Status" (some "nonexistent") (some "o2")
      = .ok ("F1", .singleSelectOptionId "o2") :=
  claim8_updateField_byId [⟨"F1", "Status", some [⟨"Todo", "o1"⟩]⟩] "Status"
    (some "nonexistent") "o2" (by decide) "F1" [("todo", "o1")] rfl

/-- C10: a truthy `new_value_id` takes precedence: the result is the
`singleSelectOptionId` payload regardless of the resolved field's kind —
including when the resolved option mapping is empty, i.e. a plain text
field — and any simultaneously supplied `new_value` is ignored (any two
values give identical results). -/
theorem claim10_byId_precedence (fields : List ProjField) (fname : String)
    (nv1 nv2 : Option String) (vid : String) (hvid : vid ≠ "")
    (fid : String) (opts : Dict)
    (hres : get_project_field_id_and_options fields fname = .ok (fid, opts)) :
    github_update_project_item_field fields fname nv1 (some vid)
      = github_update_project_item_field fields fname nv2 (some vid)
    ∧ (opts = [] →
        github_update_project_item_field fields fname nv1 (some vid)
          = .ok (fid, .singleSelectOptionId vid)) := by
  constructor
  · simp [github_update_project_item_field, hres, fieldUpdatePayload, hvid]
  · intro _
    simp [github_update_project_item_field, hres, fieldUpdatePayload, hvid]

/-- Witness for C10: on a resolved plain text field (empty option mapping)
the by-id call still sends the `singleSelectOptionId` payload, ignoring the
simultaneously supplied value. -/
theorem claim10_byId_precedence_witness :
    github_update_project_item_field [⟨"F2", "Notes", none⟩] "Notes"
        (some "free text") (some "oX")
      = .ok ("F2", .singleSelectOptionId "oX") :=
  (claim10_byId_precedence [⟨"F2", "Notes", none⟩] "Notes"
    (some "free text") (some "other") "oX" (by decide) "F2" [] rfl).2 rfl

/-- C2: the three-way state-filter rule.  `ALL` admits every item; `OPEN`
admits an item iff it is a draft (`DRAFT_ISSUE`) or its content state is
`OPEN`; `CLOSED` admits an item iff its content state is `CLOSED`, and —
since a draft item carries no (truthy) content, hypothesis `hdraft` —
every draft item is excluded under `CLOSED`.  The final conjunct shows
`should_add` is exactly the inclusion gate of the listing loop's per-page
body, for every state filter and node sequence. -/
theorem claim2_state_filter (item : RawItem)
    (hdraft : item.type = "DRAFT_ISSUE" → item.content = none) :
    should_add "ALL" item = true
    ∧ (should_add "OPEN" item = true ↔
        (item.type = "DRAFT_ISSUE" ∨ ∃ c, item.content = some c ∧ c.state = some "OPEN"))
    ∧ (should_add "CLOSED" item = true ↔
        (∃ c, item.content = some c ∧ c.state = some "CLOSED"))
    ∧ (item.type = "DRAFT_ISSUE" → should_add "CLOSED" item = false)
    ∧ (∀ st ns, processNodes st ns = (ns.filter (should_add st)).map normalizeItem) := by
  refine ⟨?_, ?_, ?_, ?_, ?_⟩
  · simp [should_add]
  · by_cases hd : item.type = "DRAFT_ISSUE"
    · simp [should_add, hd]
    · cases hc : item.content with
      | none => simp [should_add, hd, hc]
      | some c => simp [should_add, hd, hc]
  · by_cases hd : item.type = "DRAFT_ISSUE"
    · cases hc : item.content with
      | none => simp [should_add, hd, hc]
      | some c => simp [should_add, hd, hc]
    · cases hc : item.content with
      | none => simp [should_add, hd, hc]
      | some c => simp [should_add, hd, hc]
  · intro hd
    simp [should_add, hd, hdraft hd]
  · intro st ns
    induction ns with
    | nil => rfl
    | cons n rest ih =>
      by_cases hn : should_add st n
      · simp [processNodes, hn, ih]
      · simp [processNodes, hn, ih]

/-- Witness for C2 at a concrete draft item (no content): excluded by the
`CLOSED` filter. -/
theorem claim2_state_filter_witness :
    should_add "CLOSED" ⟨"it1", "DRAFT_ISSUE", [], none⟩ = false :=
  (claim2_state_filter ⟨"it1", "DRAFT_ISSUE", [], none⟩ (fun _ => rfl)).2.2.2.1 rfl

theorem listItemsGo_drains (state : String) :
    ∀ (pages : List Page) (after : Option String),
      pages ≠ [] →
      (∀ p ∈ pages.dropLast, p.pageInfo.hasNextPage = true) →
      (∀ p, pages.getLast? = some p → p.pageInfo.hasNextPage = false) →
      listItemsGo state pages after =
        ((pages.map (fun p => processNodes state p.nodes)).flatten,
         (50, after) :: pages.dropLast.map (fun p => (50, p.pageInfo.endCursor))) := by
  intro pages
  induction pages with
  | nil => intro after h; exact absurd rfl h
  | cons p ps ih =>
    intro after _ hmid hlast
    cases ps with
    | nil =>
      have hp : p.pageInfo.hasNextPage = false := hlast p rfl
      simp [listItemsGo, hp]
    | cons q qs =>
      have hp : p.pageInfo.hasNextPage = true := by
        apply hmid p
        rw [List.dropLast_cons₂]
        exact List.mem_cons_self _ _
      have hmid' : ∀ r ∈ (q :: qs).dropLast, r.pageInfo.hasNextPage = true := by
        intro r hr
        apply hmid r
        rw [List.dropLast_cons₂]
        exact List.mem_cons_of_mem _ hr
      have hlast' : ∀ r, (q :: qs).getLast? = some r → r.pageInfo.hasNextPage = false := by
        intro r hr
        apply hlast r
        rw [List.getLast?_cons_cons]
        exact hr
      have hrec := ih p.pageInfo.endCursor (by simp) hmid' hlast'
      have hstep : listItemsGo state (p :: q :: qs) after =
          (processNodes state p.nodes ++ (listItemsGo state (q :: qs) p.pageInfo.endCursor).1,
           (50, after) :: (listItemsGo state (q :: qs) p.pageInfo.endCursor).2) := by
        rw [listItemsGo, hp]
        rw [if_pos rfl]
      rw [hstep, hrec]
      simp [List.dropLast_cons₂]

/-- C4: for a page sequence whose final page has `hasNextPage = false` (and
the earlier pages `true`, so the loop walks the whole sequence), the
listing requests every page with size 50, threads page N's `endCursor` as
the `after` argument of page N+1's request starting from a `None` cursor,
loops exactly while `hasNextPage` is true, and returns the flattened
normalized items of all pages, in page order with per-page order
preserved.  The returned items are `ItemInfo` records, which carry no
cursor. -/
theorem claim4_pagination (state : String) (pages : List Page)
    (hne : pages ≠ [])
    (hmid : ∀ p ∈ pages.dropLast, p.pageInfo.hasNextPage = true)
    (hlast : ∀ p, pages.getLast? = some p → p.pageInfo.hasNextPage = false) :
    (github_get_project_items state pages).1
        = (pages.map (fun p => processNodes state p.nodes)).flatten
    ∧ (github_get_project_items state pages).2
        = (50, (none : Option String))
            :: pages.dropLast.map (fun p => (50, p.pageInfo.endCursor)) := by
  have h := listItemsGo_drains state pages none hne hmid hlast
  rw [github_get_project_items, h]
  exact ⟨rfl, rfl⟩

/-- Witness for C4 at a concrete two-page sequence: both pages' nodes are
returned in order and the second request carries the first page's
cursor. -/
theorem claim4_pagination_witness :
    (github_get_project_items "ALL"
        [⟨[⟨"a", "ISSUE", [], none⟩], ⟨true, some "c1"⟩⟩,
         ⟨[⟨"b", "DRAFT_ISSUE", [], none⟩], ⟨false, none⟩⟩]).1
      = [normalizeItem ⟨"a", "ISSUE", [], none⟩, normalizeItem ⟨"b", "DRAFT_ISSUE", [], none⟩]
    ∧ (github_get_project_items "ALL"
        [⟨[⟨"a", "ISSUE", [], none⟩], ⟨true, some "c1"⟩⟩,
         ⟨[⟨"b", "DRAFT_ISSUE", [], none⟩], ⟨false, none⟩⟩]).2
      = [(50, none), (50, some "c1")] := by
  have h := claim4_pagination "ALL"
    [⟨[⟨"a", "ISSUE", [], none⟩], ⟨true, some "c1"⟩⟩,
     ⟨[⟨"b", "DRAFT_ISSUE", [], none⟩], ⟨false, none⟩⟩]
    (by simp) (by simp) (by simp)
  obtain ⟨h1, h2⟩ := h
  exact ⟨by rw [h1]; rfl, by rw [h2]; rfl⟩

theorem mem_applyAssignees (cur new : List String) (x : String) :
    x ∈ applyAssignees cur new ↔ x ∈ new := by
  unfold applyAssignees
  by_cases hx : x ∈ new
  · simp only [hx, iff_true]
    by_cases hxc : x ∈ cur
    · split_ifs with h1 h2 h3 h4 h5 <;>
        simp_all [List.mem_filter, List.mem_append, decide_eq_true_iff]
    · split_ifs with h1 h2 h3 h4 h5 <;>
        simp_all [List.mem_filter, List.mem_append, decide_eq_true_iff]
  · simp only [hx, iff_false]
    by_cases hxc : x ∈ cur
    · split_ifs with h1 h2 h3 h4 h5 <;>
        simp_all [List.mem_filter, List.mem_append, decide_eq_true_iff]
    · split_ifs with h1 h2 h3 h4 h5 <;>
        simp_all [List.mem_filter, List.mem_append, decide_eq_true_iff]

/-- C9: the issue update changes only the fields explicitly supplied, and
the `labels` / `assignees` arguments have replacement semantics: after a
successful update supplying an assignees list `A`, the assignee set is
exactly `A` (an empty list clears it); a supplied labels list replaces the
full label set; unsupplied fields are unchanged. -/
theorem claim9_update_issue (vm : List Int) (issue : Issue) (u : IssueUpdate)
    (issue' : Issue) (h : github_update_issue vm issue u = .ok issue') :
    (u.title = none → issue'.title = issue.title)
    ∧ (∀ t, u.title = some t → issue'.title = t)
    ∧ (u.body = none → issue'.body = issue.body)
    ∧ (∀ b, u.body = some b → issue'.body = b)
    ∧ (u.state = none → issue'.state = issue.state)
    ∧ (∀ s, u.state = some s → issue'.state = s)
    ∧ (u.labels = none → issue'.labels = issue.labels)
    ∧ (∀ ls, u.labels = some ls → issue'.labels = ls)
    ∧ (u.assignees = none → issue'.assignees = issue.assignees)
    ∧ (∀ A x, u.assignees = some A → (x ∈ issue'.assignees ↔ x ∈ A))
    ∧ (u.milestone_number = none → issue'.milestone = issue.milestone) := by
  rcases u with ⟨ut, ub, us, ul, ua, um⟩
  cases ul <;> cases ua <;> cases um <;>
    simp only [github_update_issue] at h <;>
    (try split_ifs at h) <;>
    simp only [Except.ok.injEq] at h
  all_goals
    subst h
  all_goals
    refine ⟨?_, ?_, ?_, ?_, ?_, ?_, ?_, ?_, ?_, ?_, ?_⟩ <;>
      intros <;> simp_all [mem_applyAssignees]

/-- Witness for C9 at a concrete successful update that clears the labels
and replaces the assignee set `["a"]` by `["b", "c"]`. -/
theorem claim9_update_issue_witness :
    "b" ∈ (Issue.mk "t" "b" "open" [] ["b", "c"] none).assignees ↔ "b" ∈ ["b", "c"] :=
  (claim9_update_issue [] ⟨"t", "b", "open", ["l"], ["a"], none⟩
      ⟨none, none, none, some [], some ["b", "c"], none⟩
      ⟨"t", "b", "open", [], ["b", "c"], none⟩ rfl).2.2.2.2.2.2.2.2.2.1 ["b", "c"] "b" rfl

end DevOpsMcp
